import Mathlib

/-!
# Verification of the Alpha AI conversation engine

Shallow embedding of the conversation/event engine of the Alpha AI
repository (`src/alpha_ai/conversation.py`, `src/alpha_ai/server.py`,
`src/alpha_ai/database.py`) together with proofs and refutations of the
specification's claims about it.

Python values that can appear in message payloads (tool-call arguments,
serialized histories) are modelled by a JSON-like value type.  Wall-clock
timestamps and the live agent/toolset objects are omitted: no claim
mentions them and they carry no logic.
-/

namespace AlphaAI

/-- JSON-like values, standing for the loosely typed Python data that flows
through the engine (tool-call argument payloads, serialized histories). -/
inductive Json where
  | null
  | bool (b : Bool)
  | num (n : Int)
  | str (s : String)
  | arr (elems : List Json)
  | obj (fields : List (String × Json))
deriving Repr

/-- Key lookup in a JSON object's field list (first match wins), as a
Python `dict` access does for the dictionaries produced by the codec. -/
def jsonLookup (fields : List (String × Json)) (key : String) : Option Json :=
  match fields with
  | [] => none
  | (k, v) :: rest => if k = key then some v else jsonLookup rest key

/-! ## History model

`pydantic_ai.messages`: a history is a list of `ModelMessage`s, each either a
`ModelRequest` (parts: system prompt / user prompt / tool return) or a
`ModelResponse` (parts: text / tool call).  `conversation.py` stores
`history : List[ModelMessage]` on the `Conversation` object. -/

/-- A part of a `ModelRequest` (`pydantic_ai.messages`): `SystemPromptPart`,
`UserPromptPart` or `ToolReturnPart`. -/
inductive RequestPart where
  | systemPrompt (content : String)
  | userPrompt (content : String)
  | toolReturn (toolName : String) (content : Json) (callId : String)
deriving Repr

/-- A part of a `ModelResponse`: `TextPart` or `ToolCallPart`.  `args` is
loosely typed in the source (`str | dict`), modelled as `Json`. -/
inductive ResponsePart where
  | text (content : String)
  | toolCall (toolName : String) (args : Json) (callId : String)
deriving Repr

/-- A `ModelMessage`: either a `ModelRequest` or a `ModelResponse`. -/
inductive ModelMessage where
  | request (parts : List RequestPart)
  | response (parts : List ResponsePart)
deriving Repr

/-! ## Serialization codec

`Conversation.to_db_model` serializes with
`json.dumps(to_jsonable_python(self.history))`; `Conversation.from_db_model`
deserializes with `ModelMessagesTypeAdapter.validate_python(json.loads(...))`.
Both ends live in the `pydantic_ai` / stdlib collaborators, not in `src/`.

Modelled from the spec: the at-rest `history_blob` is "a JSON array of tagged
Message/Part objects preserving discriminator tags for each Part variant"
(spec section 6); the discriminator tags are `pydantic_ai`'s `part_kind` /
`kind` values.  The blob is modelled as the JSON value tree (Python's
`json.dumps` / `json.loads` round-trip the trees produced here exactly). -/

/-- Encode one request part as its tagged JSON object. -/
def encodeRequestPart : RequestPart → Json
  | .systemPrompt c =>
      .obj [("part_kind", .str "system-prompt"), ("content", .str c)]
  | .userPrompt c =>
      .obj [("part_kind", .str "user-prompt"), ("content", .str c)]
  | .toolReturn name content callId =>
      .obj [("part_kind", .str "tool-return"), ("tool_name", .str name),
            ("content", content), ("tool_call_id", .str callId)]

/-- Encode one response part as its tagged JSON object. -/
def encodeResponsePart : ResponsePart → Json
  | .text c =>
      .obj [("part_kind", .str "text"), ("content", .str c)]
  | .toolCall name args callId =>
      .obj [("part_kind", .str "tool-call"), ("tool_name", .str name),
            ("args", args), ("tool_call_id", .str callId)]

/-- Encode one message as its tagged JSON object (`kind` discriminator). -/
def encodeMessage : ModelMessage → Json
  | .request parts =>
      .obj [("kind", .str "request"),
            ("parts", .arr (parts.map encodeRequestPart))]
  | .response parts =>
      .obj [("kind", .str "response"),
            ("parts", .arr (parts.map encodeResponsePart))]

/-- `serialize`: the `history_blob` written by `to_db_model`. -/
def serializeHistory (h : List ModelMessage) : Json :=
  .arr (h.map encodeMessage)

/-- Decode one tagged request part; `none` on a malformed object
(`SerializationError` in the spec's taxonomy). -/
def decodeRequestPart (j : Json) : Option RequestPart :=
  match j with
  | .obj fields =>
      match jsonLookup fields "part_kind" with
      | some (.str "system-prompt") =>
          match jsonLookup fields "content" with
          | some (.str c) => some (.systemPrompt c)
          | _ => none
      | some (.str "user-prompt") =>
          match jsonLookup fields "content" with
          | some (.str c) => some (.userPrompt c)
          | _ => none
      | some (.str "tool-return") =>
          match jsonLookup fields "tool_name", jsonLookup fields "content",
                jsonLookup fields "tool_call_id" with
          | some (.str name), some content, some (.str callId) =>
              some (.toolReturn name content callId)
          | _, _, _ => none
      | _ => none
  | _ => none

/-- Decode one tagged response part. -/
def decodeResponsePart (j : Json) : Option ResponsePart :=
  match j with
  | .obj fields =>
      match jsonLookup fields "part_kind" with
      | some (.str "text") =>
          match jsonLookup fields "content" with
          | some (.str c) => some (.text c)
          | _ => none
      | some (.str "tool-call") =>
          match jsonLookup fields "tool_name", jsonLookup fields "args",
                jsonLookup fields "tool_call_id" with
          | some (.str name), some args, some (.str callId) =>
              some (.toolCall name args callId)
          | _, _, _ => none
      | _ => none
  | _ => none

/-- Decode a list of parts, failing if any element fails. -/
def decodeParts (dec : Json → Option α) : List Json → Option (List α)
  | [] => some []
  | j :: rest =>
      match dec j, decodeParts dec rest with
      | some p, some ps => some (p :: ps)
      | _, _ => none

/-- Decode one tagged message. -/
def decodeMessage (j : Json) : Option ModelMessage :=
  match j with
  | .obj fields =>
      match jsonLookup fields "kind", jsonLookup fields "parts" with
      | some (.str "request"), some (.arr parts) =>
          (decodeParts decodeRequestPart parts).map .request
      | some (.str "response"), some (.arr parts) =>
          (decodeParts decodeResponsePart parts).map .response
      | _, _ => none
  | _ => none

/-- `deserialize`: rebuild a history from the blob, as `from_db_model` does.
(The source's guard skipping an `"[]"` blob leaves the history empty, which
coincides with decoding the empty array.) -/
def deserializeHistory (j : Json) : Option (List ModelMessage) :=
  match j with
  | .arr msgs => decodeParts decodeMessage msgs
  | _ => none

/-! ## Python `json.loads` and `str`

`server.py` normalizes loosely typed tool-call argument payloads with
`json.loads` (stdlib) and `str`.  Both are collaborator functions; they are
modelled here on the fragment of JSON the engine exchanges (no escape
sequences inside string literals, integer numerics).  The recursive-descent
parser is fuelled by the input length, which bounds nesting depth for every
input the stdlib parser accepts. -/

/-- JSON whitespace. -/
def isJsonWs (c : Char) : Bool :=
  c = ' ' || c = '\n' || c = '\t' || c = '\r'

/-- Drop leading JSON whitespace. -/
def skipWs : List Char → List Char
  | [] => []
  | c :: rest => if isJsonWs c then skipWs rest else c :: rest

/-- Scan a JSON string body up to the closing quote (escape sequences are
outside the modelled fragment and fail the parse). -/
def scanStringBody : List Char → Option (List Char × List Char)
  | [] => none
  | c :: rest =>
      if c = '"' then some ([], rest)
      else if c = '\\' then none
      else
        match scanStringBody rest with
        | some (body, r) => some (c :: body, r)
        | none => none

/-- Longest prefix of decimal digits. -/
def scanDigits : List Char → List Char × List Char
  | [] => ([], [])
  | c :: rest =>
      if c.isDigit then
        let (d, r) := scanDigits rest
        (c :: d, r)
      else ([], c :: rest)

/-- Numeric value of a digit string. -/
def digitsToNat (ds : List Char) : Nat :=
  ds.foldl (fun n c => 10 * n + (c.toNat - '0'.toNat)) 0

mutual

/-- Parse one JSON value, returning it with the unconsumed remainder. -/
def parseJsonVal : Nat → List Char → Option (Json × List Char)
  | 0, _ => none
  | fuel + 1, cs =>
      match skipWs cs with
      | 'n' :: 'u' :: 'l' :: 'l' :: r => some (.null, r)
      | 't' :: 'r' :: 'u' :: 'e' :: r => some (.bool true, r)
      | 'f' :: 'a' :: 'l' :: 's' :: 'e' :: r => some (.bool false, r)
      | '"' :: r =>
          match scanStringBody r with
          | some (body, r') => some (.str (String.mk body), r')
          | none => none
      | '-' :: r =>
          match scanDigits r with
          | ([], _) => none
          | (ds, r') => some (.num (-(digitsToNat ds : Int)), r')
      | '[' :: r =>
          (match skipWs r with
           | ']' :: r' => some (.arr [], r')
           | r' =>
               match parseArrayItems fuel r' with
               | some (elems, r'') => some (.arr elems, r'')
               | none => none)
      | '{' :: r =>
          (match skipWs r with
           | '}' :: r' => some (.obj [], r')
           | r' =>
               match parseObjItems fuel r' with
               | some (fields, r'') => some (.obj fields, r'')
               | none => none)
      | c :: r =>
          if c.isDigit then
            match scanDigits (c :: r) with
            | (ds, r') => some (.num (digitsToNat ds : Int), r')
          else none
      | [] => none

/-- Parse the comma-separated items of a non-empty JSON array, including the
closing bracket. -/
def parseArrayItems : Nat → List Char → Option (List Json × List Char)
  | 0, _ => none
  | fuel + 1, cs =>
      match parseJsonVal fuel cs with
      | some (v, r) =>
          (match skipWs r with
           | ',' :: r' =>
               match parseArrayItems fuel r' with
               | some (vs, r'') => some (v :: vs, r'')
               | none => none
           | ']' :: r' => some ([v], r')
           | _ => none)
      | none => none

/-- Parse the comma-separated members of a non-empty JSON object, including
the closing brace. -/
def parseObjItems : Nat → List Char → Option (List (String × Json) × List Char)
  | 0, _ => none
  | fuel + 1, cs =>
      match skipWs cs with
      | '"' :: r =>
          (match scanStringBody r with
           | some (key, r') =>
               (match skipWs r' with
                | ':' :: r'' =>
                    (match parseJsonVal fuel r'' with
                     | some (v, r3) =>
                         (match skipWs r3 with
                          | ',' :: r4 =>
                              (match parseObjItems fuel r4 with
                               | some (fs, r5) => some ((String.mk key, v) :: fs, r5)
                               | none => none)
                          | '}' :: r4 => some ([(String.mk key, v)], r4)
                          | _ => none)
                     | none => none)
                | _ => none)
           | none => none)
      | _ => none

end

/-- `json.loads`: parse a complete JSON document (trailing whitespace only),
`none` standing for `json.JSONDecodeError`. -/
def jsonLoads (s : String) : Option Json :=
  match parseJsonVal (s.length + 1) s.toList with
  | some (j, rest) => if (skipWs rest).isEmpty then some j else none
  | none => none

/-- Python `str(...)` of an argument payload.  Only the scalar cases are ever
reached by the engine (`pydantic_ai` argument payloads are `str`, mappings or
`None`); the rendering of containers is irrelevant to every claim and is
abbreviated. -/
def pyStr : Json → String
  | .null => "None"
  | .bool true => "True"
  | .bool false => "False"
  | .num n => toString n
  | .str s => s
  | .arr _ => "[...]"
  | .obj _ => "\x7b...\x7d"

/-- Whether a JSON value is a mapping (`isinstance(args, dict)`). -/
def isMapping : Json → Bool
  | .obj _ => true
  | _ => false

/-! ## Tool-call argument normalization

`server.py` lines 247–257 (`chat_stream.generate`, `FunctionToolCallEvent`
branch), duplicated verbatim at lines 140–149 (`chat`):

    args = event.part.args
    if isinstance(args, str):
        try:
            args = json.loads(args)
        except json.JSONDecodeError:
            args = {"value": args}
    elif not isinstance(args, dict):
        args = {"value": str(args)}
-/

/-- Argument normalization as written in the source.  Note that when `args`
is a string that parses as JSON, the parsed value is kept as-is — the
`elif not isinstance(args, dict)` guard is never re-examined. -/
def normalizeArgs (args : Json) : Json :=
  match args with
  | .str s =>
      match jsonLoads s with
      | some parsed => parsed
      | none => .obj [("value", .str s)]
  | .obj fields => .obj fields
  | other => .obj [("value", .str (pyStr other))]

/-! ## Stream reconstructor (`chat_stream.generate`, server.py 194–299)

The SSE generator walks the provider's event stream inside one `try` block.
Live frames are `yield`ed as they arrive; only after the stream ends
normally is `result.new_messages()` appended to the in-memory history and
`save_current` called; any exception jumps to the `except` handler, which
emits a single error frame and commits nothing.

The provider's events are abstracted by `StreamEvent`; an exception raised
while consuming the stream is the `raised` event.  (`current_text_parts`
and `tool_name_map` are accumulated by the source but never read on any
output path — `tool_name` is looked up for a tool result yet the emitted
`tool_return` frame carries only the call id and content — so they are
omitted from the state.) -/

/-- A Server-Sent-Events frame, one per engine-level event (spec section 6). -/
inductive Frame where
  | start (model : String)
  | textDelta (content : String)
  | toolCall (toolName : String) (args : Json) (callId : String)
  | toolReturn (callId : String) (content : String)
  | done
  | error (detail : String)
deriving Repr

/-- One event observed while consuming the provider's generation stream. -/
inductive StreamEvent where
  /-- `PartStartEvent` whose part is a `TextPart` (with its initial content). -/
  | partStartText (content : String)
  /-- `PartStartEvent` for any other part kind. -/
  | partStartOther
  /-- `PartDeltaEvent` with a `TextPartDelta`. -/
  | textDelta (content : String)
  /-- `PartDeltaEvent` with a `ToolCallPartDelta` (ignored by the source). -/
  | toolCallDelta
  /-- `FunctionToolCallEvent`; `args` is the loosely typed raw payload. -/
  | toolCall (toolName : String) (args : Json) (callId : String)
  /-- `FunctionToolResultEvent` (content already stringified). -/
  | toolResult (callId : String) (content : String)
  /-- An exception raised while streaming (provider error, tool-transport
  error, …): control jumps to the generator's `except` handler. -/
  | raised (detail : String)
deriving Repr

/-- Whether an event is a raised exception. -/
def isRaised : StreamEvent → Bool
  | .raised _ => true
  | _ => false

/-- The frames forwarded for one (non-raising) event.  A `PartStartEvent`
text part forwards its content only when truthy (non-empty); tool-call args
are normalized; a tool result is forwarded unconditionally — there is no
pending-call check. -/
def eventFrames : StreamEvent → List Frame
  | .partStartText c => if c = "" then [] else [.textDelta c]
  | .partStartOther => []
  | .textDelta c => [.textDelta c]
  | .toolCallDelta => []
  | .toolCall name args callId => [.toolCall name (normalizeArgs args) callId]
  | .toolResult callId content => [.toolReturn callId content]
  | .raised _ => []

/-- Frames of a whole event list (no raise). -/
def framesOf : List StreamEvent → List Frame
  | [] => []
  | e :: rest => eventFrames e ++ framesOf rest

/-- Consume the stream up to normal completion or the first raised
exception; returns the forwarded frames and the exception detail, if any. -/
def runEvents : List StreamEvent → List Frame × Option String
  | [] => ([], none)
  | .raised d :: _ => ([], some d)
  | e :: rest =>
      let (fs, err) := runEvents rest
      (eventFrames e ++ fs, err)

/-- Outcome of one execution of the SSE generator. -/
structure TurnOutcome where
  /-- The frames yielded to the live viewer, in order. -/
  frames : List Frame
  /-- The in-memory history after the generator finishes. -/
  history : List ModelMessage
  /-- Whether `save_current` was reached (turn committed). -/
  saved : Bool
deriving Repr

/-- The body of `chat_stream.generate`: emit the start frame, forward the
stream's frames, and either (normal completion) extend the history with
`result.new_messages()`, save, and emit `done`, or (exception) emit a single
error frame, leaving history and store untouched. -/
def chatStreamGenerate (model : String) (history newMessages : List ModelMessage)
    (events : List StreamEvent) : TurnOutcome :=
  match runEvents events with
  | (fs, some d) => ⟨Frame.start model :: fs ++ [Frame.error d], history, false⟩
  | (fs, none) => ⟨Frame.start model :: fs ++ [Frame.done], history ++ newMessages, true⟩

/-- Whether a frame is an error frame. -/
def isErrorFrame : Frame → Bool
  | .error _ => true
  | _ => false

/-! ## Conversation store (`conversation.py` 44–64, 210–236, 298–307)

`Conversation.to_db_model` writes the at-rest row; `ConversationManager.
save_current` commits it and back-fills a fresh id.

Modelled from the spec: the at-rest row shape `{id, model,
system_prompt_ref, history_blob, version, created_at, updated_at}` (spec
section 6) and its `version` default of 1 for a newly inserted row (spec
section 3, "`version` … starts at 1").  `src/` declares only the
event-granularity schema (`database.py`), not the blob-granularity
`Conversation` row that `conversation.py` reads and writes, so the row is
reconstructed from the spec; all logic acting on it below is translated
from `conversation.py` itself.  Timestamps are omitted. -/

/-- One at-rest conversation row. -/
structure DbRow where
  id : Nat
  model : String
  systemPromptFilename : Option String
  messagesJson : Json
  version : Nat
deriving Repr

/-- The conversation table. -/
abbrev Db := List DbRow

/-- `db.query(ConversationModel).filter_by(id=i).first()`. -/
def dbFind (db : Db) (i : Nat) : Option DbRow :=
  db.find? (fun r => r.id == i)

/-- Overwrite the fields of every row with id `i` (the ORM mutation of the
row fetched by `filter_by(id=i).first()`; ids are unique keys). -/
def dbUpdate (db : Db) (i : Nat) (f : DbRow → DbRow) : Db :=
  db.map (fun r => if r.id == i then f r else r)

/-- In-memory `Conversation` (`conversation.py` 44–64): `version` starts
at 1 in `__init__`; agent handles are omitted. -/
structure Conversation where
  id : Option Nat
  model : String
  systemPromptFilename : Option String
  history : List ModelMessage
  version : Nat
deriving Repr

/-- `ValueError(f"Conversation {id} not found in database")` — the only
failure `to_db_model` can raise.  No conflict check of any kind exists. -/
inductive SaveError where
  | notFound (id : Nat)
deriving Repr

/-- `Conversation.to_db_model` (conversation.py 210–236): with an id,
overwrite the existing row, setting the persisted `version` to the
in-memory `version + 1`; without an id, insert a fresh row (persisted
`version` = its default, 1).  Returns the updated table and the id of the
row written. -/
def to_db_model (conv : Conversation) (db : Db) (freshId : Nat) :
    Except SaveError (Db × Nat) :=
  match conv.id with
  | some i =>
      match dbFind db i with
      | some _ =>
          .ok (dbUpdate db i (fun r =>
                { r with
                  model := conv.model
                  systemPromptFilename := conv.systemPromptFilename
                  messagesJson := serializeHistory conv.history
                  version := conv.version + 1 }), i)
      | none => .error (.notFound i)
  | none =>
      .ok (db ++ [{ id := freshId
                    model := conv.model
                    systemPromptFilename := conv.systemPromptFilename
                    messagesJson := serializeHistory conv.history
                    version := 1 }], freshId)

/-- `ConversationManager.save_current` (conversation.py 298–307): commit
`to_db_model`'s row and back-fill the conversation's id if it was new.  The
in-memory `version` is NOT updated. -/
def save_current (conv : Conversation) (db : Db) (freshId : Nat) :
    Except SaveError (Conversation × Db) :=
  match to_db_model conv db freshId with
  | .error e => .error e
  | .ok (db', rowId) =>
      .ok ({ conv with id := some (conv.id.getD rowId) }, db')

/-! ## Clear endpoint (`server.py` 460–491, `clear_conversation`)

Resets the active conversation's history, re-seeds the system prompt when
one is configured and its file is readable (a read failure silently leaves
the history empty), then saves.  The prompt-file system is a collaborator,
modelled as a lookup `String → Option String`. -/

/-- `DELETE /conversation`.  Returns the updated active conversation (if
any) and table. -/
def clear_conversation (readPrompt : String → Option String)
    (conv : Option Conversation) (db : Db) (freshId : Nat) :
    Except SaveError (Option Conversation × Db) :=
  match conv with
  | none => .ok (none, db)
  | some c =>
      let hist : List ModelMessage :=
        match c.systemPromptFilename with
        | some f =>
            match readPrompt f with
            | some content => [.request [.systemPrompt content]]
            | none => []
        | none => []
      match save_current { c with history := hist } db freshId with
      | .ok (c', db') => .ok (some c', db')
      | .error e => .error e

/-! ## Event bus (`conversation.py` 28–41, `ConversationEventBus.emit`)

    async def emit(self, event_type: str, data: dict):
        for listener in self._listeners:
            await listener(event_type, data)

A listener is modelled by what the engine can observe of it: given the
event type and payload it either returns (`none`) or raises (`some msg`).
`emitBus` returns how many listeners were invoked and the exception that
propagated out of `emit`, if any.  There is no `try`/`except` around the
listener call in the source. -/

/-- `ConversationEventBus.emit`. -/
def emitBus (listeners : List (String → Json → Option String))
    (eventType : String) (data : Json) : Nat × Option String :=
  match listeners with
  | [] => (0, none)
  | l :: rest =>
      match l eventType data with
      | none =>
          let (n, r) := emitBus rest eventType data
          (n + 1, r)
      | some e => (1, some e)

/-! ## History endpoint (`server.py` 393–457, `get_conversation`)

Builds the response from `current_conv.history[-limit:]` while reporting
`total_messages=len(current_conv.history)`. -/

/-- `ToolCall` (models.py): a tool call surfaced in an API response. -/
structure ToolCallOut where
  toolName : String
  args : Json
  callId : String
deriving Repr

/-- `ToolReturn` (models.py): a tool return surfaced in an API response. -/
structure ToolReturnOut where
  toolName : String
  content : String
  callId : String
deriving Repr

/-- `MessageWithToolCalls` (models.py), without the wall-clock timestamp. -/
structure ApiMessage where
  role : String
  content : String
  toolCalls : Option (List (ToolCallOut × Option ToolReturnOut))
deriving Repr

/-- `ConversationResponse` (models.py). -/
structure ConversationResponse where
  messages : List ApiMessage
  totalMessages : Nat
  model : Option String
  systemPrompt : Option String
deriving Repr

/-- Python `xs[-limit:]` for an `int` limit: the last `limit` elements for
positive `limit`, the WHOLE list when `limit = 0` (`xs[-0:] = xs[0:]`), and
`xs[(-limit):]` for negative `limit`. -/
def pyTailSlice (xs : List α) (limit : Int) : List α :=
  if 0 < limit then xs.drop (xs.length - limit.toNat)
  else xs.drop (-limit).toNat

/-- The last `n` elements of a list. -/
def lastN (n : Nat) (xs : List α) : List α :=
  xs.drop (xs.length - n)

/-- `get_conversation`'s line 438 argument guard (no JSON parsing here):
`part.args if isinstance(part.args, dict) else {"value": str(part.args)}`. -/
def wrapArgsNoParse (args : Json) : Json :=
  match args with
  | .obj fields => .obj fields
  | other => .obj [("value", .str (pyStr other))]

/-- API messages produced for one part of a `ModelRequest`: system and user
prompts each yield one message; tool returns are skipped by the endpoint. -/
def requestPartMessages : RequestPart → List ApiMessage
  | .systemPrompt c => [⟨"system", c, none⟩]
  | .userPrompt c => [⟨"user", c, none⟩]
  | .toolReturn _ _ _ => []

/-- API messages produced for one `ModelResponse`: text parts concatenate,
tool calls pair with `None` (the endpoint's response matching is an
unimplemented TO-DO), and a response with neither yields nothing. -/
def responseMessages (parts : List ResponsePart) : List ApiMessage :=
  let texts := parts.foldr
    (fun p acc => match p with | .text c => c :: acc | _ => acc) []
  let tcs : List (ToolCallOut × Option ToolReturnOut) := parts.foldr
    (fun p acc => match p with
      | .toolCall name args callId => (⟨name, wrapArgsNoParse args, callId⟩, none) :: acc
      | _ => acc) []
  if texts.isEmpty && tcs.isEmpty then []
  else [⟨"assistant", String.join texts, if tcs.isEmpty then none else some tcs⟩]

/-- API messages of one history message. -/
def msgApiMessages : ModelMessage → List ApiMessage
  | .request parts => parts.foldr (fun p acc => requestPartMessages p ++ acc) []
  | .response parts => responseMessages parts

/-- API messages of a span of history. -/
def buildApiMessages : List ModelMessage → List ApiMessage
  | [] => []
  | m :: rest => msgApiMessages m ++ buildApiMessages rest

/-- `GET /conversation`. -/
def get_conversation (conv : Option Conversation) (limit : Int) :
    ConversationResponse :=
  match conv with
  | none => ⟨[], 0, none, none⟩
  | some c =>
      ⟨buildApiMessages (pyTailSlice c.history limit),
       c.history.length, some c.model, c.systemPromptFilename⟩

/-! ## Non-streaming chat endpoint pairing (`server.py` 132–183, `chat`)

After the turn, the endpoint scans `result.new_messages()`: every
`ToolCallPart` of a `ModelResponse` opens a `[call, None]` pair (args
normalized exactly as in the streaming branch); every `ToolReturnPart` of a
later `ModelRequest` fills `pair[1]` of EVERY already-opened pair with the
same `tool_call_id`; pairs still lacking a return are dropped, and
`tool_calls` is `None` when nothing remains. -/

/-- Fill the return slot of every opened pair matching a request part's
tool return (the inner `for tc_pair in tool_calls` loop). -/
def updatePairs (pairs : List (ToolCallOut × Option ToolReturnOut))
    (part : RequestPart) : List (ToolCallOut × Option ToolReturnOut) :=
  match part with
  | .toolReturn name content callId =>
      pairs.map (fun pr =>
        if pr.1.callId == callId then (pr.1, some ⟨name, pyStr content, callId⟩)
        else pr)
  | _ => pairs

/-- The pairs opened by one `ModelResponse`'s tool-call parts. -/
def responseCallPairs (parts : List ResponsePart) :
    List (ToolCallOut × Option ToolReturnOut) :=
  parts.foldr
    (fun p acc => match p with
      | .toolCall name args callId => (⟨name, normalizeArgs args, callId⟩, none) :: acc
      | _ => acc) []

/-- The message scan of `chat` (lines 136–169), accumulating the
`tool_calls` pair list. -/
def collectPairs : List ModelMessage → List (ToolCallOut × Option ToolReturnOut) →
    List (ToolCallOut × Option ToolReturnOut)
  | [], acc => acc
  | .response parts :: rest, acc => collectPairs rest (acc ++ responseCallPairs parts)
  | .request parts :: rest, acc => collectPairs rest (parts.foldl updatePairs acc)

/-- Keep only completed pairs (line 172's comprehension). -/
def matchedPairs (pairs : List (ToolCallOut × Option ToolReturnOut)) :
    List (ToolCallOut × ToolReturnOut) :=
  pairs.foldr
    (fun pr acc => match pr.2 with | some r => (pr.1, r) :: acc | none => acc) []

/-- The `tool_calls` field of the `ChatResponse` (line 182):
`tool_calls_tuples if tool_calls_tuples else None`. -/
def chatToolCalls (newMessages : List ModelMessage) :
    Option (List (ToolCallOut × ToolReturnOut)) :=
  let matched := matchedPairs (collectPairs newMessages [])
  if matched.isEmpty then none else some matched

/-- A tool-return part carrying `callId` occurs somewhere in the scanned
messages (what "a tool return with the same tool_call_id was found in the
turn's new messages" denotes). -/
def returnPartIn (msgs : List ModelMessage) (r : ToolReturnOut) : Prop :=
  ∃ parts content, ModelMessage.request parts ∈ msgs ∧
    RequestPart.toolReturn r.toolName content r.callId ∈ parts ∧
    r.content = pyStr content

/-- Invariant carried by the pair scan: an entry's return slot is either
still open or was filled by a matching return (`R` records its origin). -/
def PairInv (R : ToolReturnOut → Prop) (pr : ToolCallOut × Option ToolReturnOut) : Prop :=
  pr.2 = none ∨ ∃ r, pr.2 = some r ∧ R r ∧ r.callId = pr.1.callId

/-! # Theorems -/

/-! ### Stream lemmas -/

theorem framesOf_append (a b : List StreamEvent) :
    framesOf (a ++ b) = framesOf a ++ framesOf b := by
  induction a with
  | nil => rfl
  | cons e rest ih => simp [framesOf, ih]

theorem runEvents_append_raised (pre post : List StreamEvent) (d : String)
    (hpre : (pre.all fun e => !isRaised e) = true) :
    runEvents (pre ++ StreamEvent.raised d :: post) = (framesOf pre, some d) := by
  induction pre with
  | nil => rfl
  | cons e rest ih =>
      rw [List.all_cons, Bool.and_eq_true] at hpre
      cases e <;> simp_all [runEvents, framesOf, isRaised]

theorem runEvents_no_raised (events : List StreamEvent)
    (h : (events.all fun e => !isRaised e) = true) :
    runEvents events = (framesOf events, none) := by
  induction events with
  | nil => rfl
  | cons e rest ih =>
      rw [List.all_cons, Bool.and_eq_true] at h
      cases e <;> simp_all [runEvents, framesOf, isRaised]

theorem eventFrames_no_error (e : StreamEvent) :
    ∀ f ∈ eventFrames e, isErrorFrame f = false := by
  intro f hf
  cases e <;> simp [eventFrames] at hf
  case partStartText => rcases hf with ⟨-, rfl⟩; rfl
  all_goals (subst hf; rfl)

theorem framesOf_countP_error (events : List StreamEvent) :
    (framesOf events).countP (fun f => isErrorFrame f) = 0 := by
  induction events with
  | nil => rfl
  | cons e rest ih =>
      rw [framesOf, List.countP_append, ih, Nat.add_zero,
        List.countP_eq_zero]
      intro f hf
      simp [eventFrames_no_error e f hf]

/-! ### Round-trip lemmas -/

theorem decodeRequestPart_encode (p : RequestPart) :
    decodeRequestPart (encodeRequestPart p) = some p := by
  cases p <;> rfl

theorem decodeResponsePart_encode (p : ResponsePart) :
    decodeResponsePart (encodeResponsePart p) = some p := by
  cases p <;> rfl

theorem decodeParts_map_encode {α : Type} (dec : Json → Option α) (enc : α → Json)
    (hinv : ∀ a, dec (enc a) = some a) (ps : List α) :
    decodeParts dec (ps.map enc) = some ps := by
  induction ps with
  | nil => rfl
  | cons p rest ih => simp [decodeParts, hinv p, ih]

theorem decodeMessage_encode (m : ModelMessage) :
    decodeMessage (encodeMessage m) = some m := by
  cases m with
  | request parts =>
      simp [decodeMessage, encodeMessage, jsonLookup,
        decodeParts_map_encode decodeRequestPart encodeRequestPart
          decodeRequestPart_encode]
  | response parts =>
      simp [decodeMessage, encodeMessage, jsonLookup,
        decodeParts_map_encode decodeResponsePart encodeResponsePart
          decodeResponsePart_encode]

/-- **C4** Serialization round trip: for every history `h` (any ordered
sequence of messages over the five Part variants), deserializing the
serialized form yields `h` back, preserving part ordering and each part's
tagged-variant identity. -/
theorem serialize_roundtrip (h : List ModelMessage) :
    deserializeHistory (serializeHistory h) = some h := by
  simp [deserializeHistory, serializeHistory,
    decodeParts_map_encode decodeMessage encodeMessage decodeMessage_encode]

/-- **C1** Turn atomicity: a generation stream that raises before normal
completion leaves the conversation history unchanged and uncommitted; the
already-forwarded live frames are kept as forwarded and exactly one error
frame is emitted to the live viewer. -/
theorem turn_atomic_on_error (model : String) (history newMsgs : List ModelMessage)
    (pre post : List StreamEvent) (d : String)
    (hpre : (pre.all fun e => !isRaised e) = true) :
    (chatStreamGenerate model history newMsgs
        (pre ++ StreamEvent.raised d :: post)).history = history ∧
    (chatStreamGenerate model history newMsgs
        (pre ++ StreamEvent.raised d :: post)).saved = false ∧
    (chatStreamGenerate model history newMsgs
        (pre ++ StreamEvent.raised d :: post)).frames
      = Frame.start model :: (framesOf pre ++ [Frame.error d]) ∧
    ((chatStreamGenerate model history newMsgs
        (pre ++ StreamEvent.raised d :: post)).frames.countP
      (fun f => isErrorFrame f)) = 1 := by
  have h := runEvents_append_raised pre post d hpre
  have hframes : (chatStreamGenerate model history newMsgs
      (pre ++ StreamEvent.raised d :: post)).frames
      = Frame.start model :: (framesOf pre ++ [Frame.error d]) := by
    simp [chatStreamGenerate, h]
  refine ⟨by simp [chatStreamGenerate, h], by simp [chatStreamGenerate, h], hframes, ?_⟩
  rw [hframes]
  simp only [List.countP_cons, List.countP_append, framesOf_countP_error,
    List.countP_nil]
  simp [isErrorFrame]

/-- Witness for C1: the spec's own test stream
`Start, TextDelta("partial"), Error("boom")`. -/
theorem turn_atomic_on_error_witness :
    (([StreamEvent.textDelta "partial"].all fun e => !isRaised e) = true) ∧
    ((chatStreamGenerate "m" [.request [.userPrompt "hi"]] []
        ([StreamEvent.textDelta "partial"] ++ StreamEvent.raised "boom" :: [])).history
      = [.request [.userPrompt "hi"]] ∧
     (chatStreamGenerate "m" [.request [.userPrompt "hi"]] []
        ([StreamEvent.textDelta "partial"] ++ StreamEvent.raised "boom" :: [])).saved = false ∧
     (chatStreamGenerate "m" [.request [.userPrompt "hi"]] []
        ([StreamEvent.textDelta "partial"] ++ StreamEvent.raised "boom" :: [])).frames
      = Frame.start "m" :: (framesOf [StreamEvent.textDelta "partial"] ++ [Frame.error "boom"]) ∧
     ((chatStreamGenerate "m" [.request [.userPrompt "hi"]] []
        ([StreamEvent.textDelta "partial"] ++ StreamEvent.raised "boom" :: [])).frames.countP
       (fun f => isErrorFrame f)) = 1) :=
  ⟨rfl, turn_atomic_on_error "m" [.request [.userPrompt "hi"]] []
    [StreamEvent.textDelta "partial"] [] "boom" rfl⟩

/-- **C5 counterexample**: a tool result whose call id matches no pending
tool call does NOT fail the turn — the source defaults the unknown name to
`"unknown"` and streams a normal `tool_return` frame; the turn commits.
The claim's `UnmatchedToolReturn` failure does not exist in the code. -/
theorem unmatched_tool_return_counterexample :
    chatStreamGenerate "m" [] [] [StreamEvent.toolResult "orphan" "out"]
      = ⟨[Frame.start "m", Frame.toolReturn "orphan" "out", Frame.done], [], true⟩ := rfl

/-- **C5 (amended)**: a tool-result event whose call id has no pending tool
call in the turn is forwarded to the live viewer as an ordinary
`tool_return` frame and never aborts the turn: any stream containing it
(and no raised exception) commits normally, with no error frame. -/
theorem tool_result_forwarded_not_aborting (model : String)
    (history newMsgs : List ModelMessage) (pre post : List StreamEvent)
    (callId content : String)
    (hpre : (pre.all fun e => !isRaised e) = true)
    (hpost : (post.all fun e => !isRaised e) = true) :
    (chatStreamGenerate model history newMsgs
        (pre ++ StreamEvent.toolResult callId content :: post)).saved = true ∧
    Frame.toolReturn callId content ∈
      (chatStreamGenerate model history newMsgs
        (pre ++ StreamEvent.toolResult callId content :: post)).frames ∧
    ((chatStreamGenerate model history newMsgs
        (pre ++ StreamEvent.toolResult callId content :: post)).frames.countP
      (fun f => isErrorFrame f)) = 0 ∧
    (chatStreamGenerate model history newMsgs
        (pre ++ StreamEvent.toolResult callId content :: post)).history
      = history ++ newMsgs := by
  have hall : ((pre ++ StreamEvent.toolResult callId content :: post).all
      fun e => !isRaised e) = true := by
    rw [List.all_append, List.all_cons, Bool.and_eq_true, Bool.and_eq_true]
    exact ⟨hpre, rfl, hpost⟩
  have h := runEvents_no_raised _ hall
  have hframes : (chatStreamGenerate model history newMsgs
      (pre ++ StreamEvent.toolResult callId content :: post)).frames
      = Frame.start model ::
        (framesOf (pre ++ StreamEvent.toolResult callId content :: post) ++ [Frame.done]) := by
    simp [chatStreamGenerate, h]
  refine ⟨by simp [chatStreamGenerate, h], ?_, ?_, by simp [chatStreamGenerate, h]⟩
  · rw [hframes, framesOf_append]
    simp [framesOf, eventFrames]
  · rw [hframes]
    simp only [List.countP_cons, List.countP_append, framesOf_countP_error,
      List.countP_nil]
    simp [isErrorFrame]

/-- Witness for C5 (amended): the orphan tool result alone. -/
theorem tool_result_forwarded_not_aborting_witness :
    ((([] : List StreamEvent).all fun e => !isRaised e) = true) ∧
    ((chatStreamGenerate "m" [] [] ([] ++ StreamEvent.toolResult "orphan" "out" :: [])).saved
        = true ∧
     Frame.toolReturn "orphan" "out" ∈
      (chatStreamGenerate "m" [] [] ([] ++ StreamEvent.toolResult "orphan" "out" :: [])).frames ∧
     ((chatStreamGenerate "m" [] [] ([] ++ StreamEvent.toolResult "orphan" "out" :: [])).frames.countP
       (fun f => isErrorFrame f)) = 0 ∧
     (chatStreamGenerate "m" [] [] ([] ++ StreamEvent.toolResult "orphan" "out" :: [])).history
        = [] ++ []) :=
  ⟨rfl, tool_result_forwarded_not_aborting "m" [] [] [] [] "orphan" "out" rfl rfl⟩

/-- **C6 counterexample**: a tool call whose argument payload is the string
`"42"` is forwarded with args `42` — `json.loads` succeeds and its
non-mapping result is used as-is, never re-wrapped — so the arguments are
NOT normalized into a mapping. -/
theorem args_parse_non_mapping_counterexample :
    (chatStreamGenerate "m" [] [] [StreamEvent.toolCall "calc" (.str "42") "id1"]).frames
      = [Frame.start "m", Frame.toolCall "calc" (.num 42) "id1", Frame.done] ∧
    isMapping (Json.num 42) = false ∧
    (chatStreamGenerate "m" [] [] [StreamEvent.toolCall "calc" (.str "42") "id1"]).saved
      = true := ⟨rfl, rfl, rfl⟩

/-- **C6 (amended)**: a tool call's argument payload never fails the turn:
the call is always forwarded carrying `normalizeArgs args`, where a string
is parsed as JSON when possible (the parse result kept as-is, mapping or
not) and every other non-mapping value is wrapped under the synthetic key
`"value"` — so the forwarded args are a mapping unless the payload was a
string parsing to a non-mapping JSON value. -/
theorem tool_call_args_normalization (model : String)
    (history newMsgs : List ModelMessage) (pre post : List StreamEvent)
    (name : String) (args : Json) (callId : String)
    (hpre : (pre.all fun e => !isRaised e) = true)
    (hpost : (post.all fun e => !isRaised e) = true) :
    (chatStreamGenerate model history newMsgs
        (pre ++ StreamEvent.toolCall name args callId :: post)).saved = true ∧
    Frame.toolCall name (normalizeArgs args) callId ∈
      (chatStreamGenerate model history newMsgs
        (pre ++ StreamEvent.toolCall name args callId :: post)).frames ∧
    ((chatStreamGenerate model history newMsgs
        (pre ++ StreamEvent.toolCall name args callId :: post)).frames.countP
      (fun f => isErrorFrame f)) = 0 ∧
    (isMapping (normalizeArgs args) = true ∨
      ∃ s j, args = Json.str s ∧ jsonLoads s = some j ∧ normalizeArgs args = j) := by
  have hall : ((pre ++ StreamEvent.toolCall name args callId :: post).all
      fun e => !isRaised e) = true := by
    rw [List.all_append, List.all_cons, Bool.and_eq_true, Bool.and_eq_true]
    exact ⟨hpre, rfl, hpost⟩
  have h := runEvents_no_raised _ hall
  have hframes : (chatStreamGenerate model history newMsgs
      (pre ++ StreamEvent.toolCall name args callId :: post)).frames
      = Frame.start model ::
        (framesOf (pre ++ StreamEvent.toolCall name args callId :: post) ++ [Frame.done]) := by
    simp [chatStreamGenerate, h]
  refine ⟨?_, ?_, ?_, ?_⟩
  · simp [chatStreamGenerate, h]
  · rw [hframes, framesOf_append]
    simp [framesOf, eventFrames]
  · rw [hframes]
    simp only [List.countP_cons, List.countP_append, framesOf_countP_error,
      List.countP_nil]
    simp [isErrorFrame]
  · cases args with
    | str s =>
        cases hload : jsonLoads s with
        | some j => exact Or.inr ⟨s, j, rfl, hload, by simp [normalizeArgs, hload]⟩
        | none => exact Or.inl (by simp [normalizeArgs, hload, isMapping])
    | obj fields => exact Or.inl rfl
    | null => exact Or.inl rfl
    | bool b => exact Or.inl rfl
    | num n => exact Or.inl rfl
    | arr elems => exact Or.inl rfl

/-- Witness for C6 (amended): the string payload `"42"`. -/
theorem tool_call_args_normalization_witness :
    ((([] : List StreamEvent).all fun e => !isRaised e) = true) ∧
    ((chatStreamGenerate "m" [] []
        ([] ++ StreamEvent.toolCall "calc" (.str "42") "id1" :: [])).saved = true ∧
     Frame.toolCall "calc" (normalizeArgs (.str "42")) "id1" ∈
      (chatStreamGenerate "m" [] []
        ([] ++ StreamEvent.toolCall "calc" (.str "42") "id1" :: [])).frames ∧
     ((chatStreamGenerate "m" [] []
        ([] ++ StreamEvent.toolCall "calc" (.str "42") "id1" :: [])).frames.countP
       (fun f => isErrorFrame f)) = 0 ∧
     (isMapping (normalizeArgs (.str "42")) = true ∨
       ∃ s j, Json.str "42" = Json.str s ∧ jsonLoads s = some j ∧
         normalizeArgs (.str "42") = j)) :=
  ⟨rfl, tool_call_args_normalization "m" [] [] [] [] "calc" (.str "42") "id1" rfl rfl⟩

/-! ### Store lemmas -/

theorem dbFind_dbUpdate (db : Db) (i : Nat) (f : DbRow → DbRow)
    (hf : ∀ r, (f r).id = r.id) :
    dbFind (dbUpdate db i f) i = (dbFind db i).map f := by
  induction db with
  | nil => rfl
  | cons r rest ih =>
      by_cases h : r.id = i
      · simp [dbFind, dbUpdate, List.find?_cons, hf, h] at ih ⊢
      · simp [dbFind, dbUpdate, List.find?_cons, hf, h] at ih ⊢
        exact ih

/-- The row update written by `to_db_model` for conversation `conv`. -/
def saveRowUpdate (conv : Conversation) (r : DbRow) : DbRow :=
  { r with
    model := conv.model
    systemPromptFilename := conv.systemPromptFilename
    messagesJson := serializeHistory conv.history
    version := conv.version + 1 }

theorem save_current_eq (conv : Conversation) (db : Db) (freshId i : Nat)
    (hid : conv.id = some i) (hfound : (dbFind db i).isSome = true) :
    save_current conv db freshId
      = .ok ({ conv with id := some i }, dbUpdate db i (saveRowUpdate conv)) := by
  rcases Option.isSome_iff_exists.mp hfound with ⟨row, hrow⟩
  simp [save_current, to_db_model, hid, hrow, saveRowUpdate, dbUpdate]

/-- **C2 counterexample**: two sequential `save_current` calls on the same
conversation (in-memory version 1, at-rest version 1) persist version 2 and
then version 2 AGAIN — not `v` and `v+1`: `save_current` never updates the
in-memory version, so the second save does not increase the persisted
version at all. -/
theorem save_version_counterexample :
    save_current ⟨some 1, "m", none, [], 1⟩ [⟨1, "m", none, Json.arr [], 1⟩] 2
      = .ok (⟨some 1, "m", none, [], 1⟩, [⟨1, "m", none, Json.arr [], 2⟩]) ∧
    save_current ⟨some 1, "m", none, [], 1⟩ [⟨1, "m", none, Json.arr [], 2⟩] 2
      = .ok (⟨some 1, "m", none, [], 1⟩, [⟨1, "m", none, Json.arr [], 2⟩]) :=
  ⟨rfl, rfl⟩

/-- **C2 (amended)**: a successful save of an existing conversation sets the
persisted version to the in-memory version + 1 and leaves the in-memory
version unchanged; consequently two sequential saves persist `v+1` and
`v+1` again (not `v` and `v+1`), and the persisted version does not
strictly increase across saves. -/
theorem save_version_behaviour (conv : Conversation) (db : Db) (freshId i : Nat)
    (hid : conv.id = some i) (hfound : (dbFind db i).isSome = true) :
    ∃ conv' db', save_current conv db freshId = .ok (conv', db') ∧
      conv'.version = conv.version ∧ conv'.id = some i ∧
      (dbFind db' i).map DbRow.version = some (conv.version + 1) ∧
      ∃ conv'' db'', save_current conv' db' freshId = .ok (conv'', db'') ∧
        (dbFind db'' i).map DbRow.version = some (conv.version + 1) := by
  rcases Option.isSome_iff_exists.mp hfound with ⟨row, hrow⟩
  have hfind1 : dbFind (dbUpdate db i (saveRowUpdate conv)) i
      = some (saveRowUpdate conv row) := by
    rw [dbFind_dbUpdate db i (saveRowUpdate conv) (fun r => rfl), hrow]
    rfl
  refine ⟨_, _, save_current_eq conv db freshId i hid hfound, rfl, rfl, ?_, ?_⟩
  · rw [hfind1]; rfl
  · have hfound' : (dbFind (dbUpdate db i (saveRowUpdate conv)) i).isSome = true := by
      rw [hfind1]; rfl
    refine ⟨_, _, save_current_eq _ _ freshId i rfl hfound', ?_⟩
    rw [dbFind_dbUpdate _ i (saveRowUpdate { conv with id := some i }) (fun r => rfl),
      hfind1]
    rfl

/-- Witness for C2 (amended): the concrete conversation and table of the
counterexample. -/
theorem save_version_behaviour_witness :
    ((⟨some 1, "m", none, [], 1⟩ : Conversation).id = some 1) ∧
    ((dbFind [⟨1, "m", none, Json.arr [], 1⟩] 1).isSome = true) ∧
    (∃ conv' db',
      save_current ⟨some 1, "m", none, [], 1⟩ [⟨1, "m", none, Json.arr [], 1⟩] 2
        = .ok (conv', db') ∧
      conv'.version = (⟨some 1, "m", none, [], 1⟩ : Conversation).version ∧
      conv'.id = some 1 ∧
      (dbFind db' 1).map DbRow.version = some ((1 : Nat) + 1) ∧
      ∃ conv'' db'', save_current conv' db' 2 = .ok (conv'', db'') ∧
        (dbFind db'' 1).map DbRow.version = some ((1 : Nat) + 1)) :=
  ⟨rfl, rfl, save_version_behaviour ⟨some 1, "m", none, [], 1⟩
    [⟨1, "m", none, Json.arr [], 1⟩] 2 1 rfl rfl⟩

/-- **C3 counterexample**: saving a conversation whose in-memory version (1)
is STALE — the at-rest version is 5 — succeeds with no error of any kind,
silently overwrites the newer at-rest history blob, and even LOWERS the
at-rest version to 2.  No `ConflictError` exists in the code. -/
theorem stale_save_counterexample :
    save_current ⟨some 1, "m", none, [], 1⟩
        [⟨1, "m", none, Json.arr [Json.str "newer"], 5⟩] 2
      = .ok (⟨some 1, "m", none, [], 1⟩, [⟨1, "m", none, Json.arr [], 2⟩]) := rfl

/-- **C3 (amended)**: `save_current` performs no version comparison at all:
for every save of a conversation whose in-memory version is stale (at-rest
version strictly greater), the save SUCCEEDS and silently overwrites the
at-rest row — history blob replaced by the stale writer's serialized
history and version set to the stale in-memory version + 1. -/
theorem stale_save_overwrites (conv : Conversation) (db : Db) (freshId i : Nat)
    (row : DbRow) (hid : conv.id = some i) (hrow : dbFind db i = some row)
    (_hstale : conv.version < row.version) :
    ∃ conv' db', save_current conv db freshId = .ok (conv', db') ∧
      dbFind db' i = some { row with
        model := conv.model
        systemPromptFilename := conv.systemPromptFilename
        messagesJson := serializeHistory conv.history
        version := conv.version + 1 } := by
  have hfound : (dbFind db i).isSome = true := by rw [hrow]; rfl
  refine ⟨_, _, save_current_eq conv db freshId i hid hfound, ?_⟩
  rw [dbFind_dbUpdate db i (saveRowUpdate conv) (fun r => rfl), hrow]
  rfl

/-- Witness for C3 (amended): in-memory version 1 against at-rest version 5. -/
theorem stale_save_overwrites_witness :
    ((⟨some 1, "m", none, [], 1⟩ : Conversation).id = some 1) ∧
    (dbFind [⟨1, "m", none, Json.arr [Json.str "newer"], 5⟩] 1
      = some ⟨1, "m", none, Json.arr [Json.str "newer"], 5⟩) ∧
    ((⟨some 1, "m", none, [], 1⟩ : Conversation).version < (5 : Nat)) ∧
    (∃ conv' db',
      save_current ⟨some 1, "m", none, [], 1⟩
          [⟨1, "m", none, Json.arr [Json.str "newer"], 5⟩] 2
        = .ok (conv', db') ∧
      dbFind db' 1 = some { (⟨1, "m", none, Json.arr [Json.str "newer"], 5⟩ : DbRow) with
        model := "m"
        systemPromptFilename := none
        messagesJson := serializeHistory []
        version := (1 : Nat) + 1 }) :=
  ⟨rfl, rfl, by decide,
   stale_save_overwrites ⟨some 1, "m", none, [], 1⟩
     [⟨1, "m", none, Json.arr [Json.str "newer"], 5⟩] 2 1
     ⟨1, "m", none, Json.arr [Json.str "newer"], 5⟩ rfl rfl (by decide)⟩

/-- **C7 counterexample**: clearing a conversation whose in-memory version
(1) is behind the at-rest version (2 — the normal state right after any
chat turn's save) leaves the persisted version at 2: it is NOT incremented
by 1.  History, identity and model behave as claimed. -/
theorem clear_version_counterexample :
    clear_conversation (fun _ => some "SP")
        (some ⟨some 1, "m", some "p.md", [.request [.userPrompt "hi"]], 1⟩)
        [⟨1, "m", some "p.md", Json.arr [], 2⟩] 9
      = .ok (some ⟨some 1, "m", some "p.md", [.request [.systemPrompt "SP"]], 1⟩,
             [⟨1, "m", some "p.md",
               serializeHistory [.request [.systemPrompt "SP"]], 2⟩]) := rfl

/-- **C7 (amended)**: `clear()` on an active conversation whose configured
system-prompt file is readable keeps the conversation's identity and model
and leaves history consisting of exactly one message containing a single
`SystemPromptPart`; the save sets the persisted version to the in-memory
version + 1 (which increments the previously persisted version only when
the in-memory and at-rest versions were equal — the in-memory version
itself is never updated by a save). -/
theorem clear_semantics (readPrompt : String → Option String) (c : Conversation)
    (db : Db) (freshId i : Nat) (f content : String)
    (hspf : c.systemPromptFilename = some f) (hread : readPrompt f = some content)
    (hid : c.id = some i) (hfound : (dbFind db i).isSome = true) :
    ∃ c' db', clear_conversation readPrompt (some c) db freshId = .ok (some c', db') ∧
      c'.id = c.id ∧ c'.model = c.model ∧
      c'.history = [.request [.systemPrompt content]] ∧
      (dbFind db' i).map DbRow.version = some (c.version + 1) ∧
      (dbFind db' i).map DbRow.messagesJson
        = some (serializeHistory [.request [.systemPrompt content]]) := by
  rcases Option.isSome_iff_exists.mp hfound with ⟨row, hrow⟩
  have hsave := save_current_eq
    { c with history := [.request [.systemPrompt content]] } db freshId i hid hfound
  refine ⟨{ c with history := [.request [.systemPrompt content]], id := some i },
    dbUpdate db i (saveRowUpdate { c with history := [.request [.systemPrompt content]] }),
    ?_, hid.symm, rfl, rfl, ?_, ?_⟩
  · rw [hspf] at hsave
    simp only [clear_conversation, hspf, hread]
    rw [hsave]
  · rw [dbFind_dbUpdate db i
      (saveRowUpdate { c with history := [.request [.systemPrompt content]] })
      (fun r => rfl), hrow]
    rfl
  · rw [dbFind_dbUpdate db i
      (saveRowUpdate { c with history := [.request [.systemPrompt content]] })
      (fun r => rfl), hrow]
    rfl

/-- Witness for C7 (amended): the counterexample's conversation. -/
theorem clear_semantics_witness :
    ((⟨some 1, "m", some "p.md", [.request [.userPrompt "hi"]], 1⟩ :
        Conversation).systemPromptFilename = some "p.md") ∧
    ((fun (_ : String) => some "SP") "p.md" = some "SP") ∧
    ((⟨some 1, "m", some "p.md", [.request [.userPrompt "hi"]], 1⟩ :
        Conversation).id = some 1) ∧
    ((dbFind [⟨1, "m", some "p.md", Json.arr [], 2⟩] 1).isSome = true) ∧
    (∃ c' db',
      clear_conversation (fun _ => some "SP")
          (some ⟨some 1, "m", some "p.md", [.request [.userPrompt "hi"]], 1⟩)
          [⟨1, "m", some "p.md", Json.arr [], 2⟩] 9
        = .ok (some c', db') ∧
      c'.id = (⟨some 1, "m", some "p.md", [.request [.userPrompt "hi"]], 1⟩ :
        Conversation).id ∧
      c'.model = (⟨some 1, "m", some "p.md", [.request [.userPrompt "hi"]], 1⟩ :
        Conversation).model ∧
      c'.history = [.request [.systemPrompt "SP"]] ∧
      (dbFind db' 1).map DbRow.version = some ((1 : Nat) + 1) ∧
      (dbFind db' 1).map DbRow.messagesJson
        = some (serializeHistory [.request [.systemPrompt "SP"]])) :=
  ⟨rfl, rfl, rfl, rfl,
   clear_semantics (fun _ => some "SP")
     ⟨some 1, "m", some "p.md", [.request [.userPrompt "hi"]], 1⟩
     [⟨1, "m", some "p.md", Json.arr [], 2⟩] 9 1 "p.md" "SP" rfl rfl rfl rfl⟩

/-- **C8 counterexample**: with two subscribers, the first of which raises,
`emit` propagates the exception to the publisher (the emit does NOT
complete normally) and the second subscriber is never invoked (only 1 of 2
listeners ran).  The source's `emit` loop has no exception handling. -/
theorem emit_counterexample :
    emitBus [fun _ _ => some "boom", fun _ _ => none] "messages_added" (Json.obj [])
      = (1, some "boom") := rfl

/-- **C8 (amended)**: a subscriber that raises makes `emit` itself raise:
the exception of the first failing subscriber propagates to the publisher,
every subscriber before it was invoked in subscription order, and no
subscriber after it is invoked (exactly `pre.length + 1` invocations). -/
theorem emit_propagates_first_failure
    (pre post : List (String → Json → Option String))
    (l : String → Json → Option String) (etype : String) (data : Json) (e : String)
    (hpre : ∀ p ∈ pre, p etype data = none) (hl : l etype data = some e) :
    emitBus (pre ++ l :: post) etype data = (pre.length + 1, some e) := by
  induction pre with
  | nil => simp [emitBus, hl]
  | cons p rest ih =>
      have hp : p etype data = none := hpre p (List.mem_cons_self p rest)
      have hrest : ∀ q ∈ rest, q etype data = none :=
        fun q hq => hpre q (List.mem_cons_of_mem p hq)
      simp [emitBus, hp, ih hrest]

/-- Witness for C8 (amended): a healthy subscriber, then a raising one,
then a healthy one that is never reached. -/
theorem emit_propagates_first_failure_witness :
    (∀ p ∈ ([fun _ _ => none] : List (String → Json → Option String)),
      p "messages_added" (Json.obj []) = none) ∧
    ((fun (_ : String) (_ : Json) => some "boom") "messages_added" (Json.obj [])
      = some "boom") ∧
    emitBus (([fun _ _ => none] : List (String → Json → Option String))
        ++ (fun _ _ => some "boom") :: [fun _ _ => none])
        "messages_added" (Json.obj [])
      = (([fun _ _ => none] : List (String → Json → Option String)).length + 1,
         some "boom") :=
  ⟨fun p hp => by
      rw [List.mem_singleton] at hp
      subst hp
      rfl,
   rfl,
   emit_propagates_first_failure [fun _ _ => none] [fun _ _ => none]
     (fun _ _ => some "boom") "messages_added" (Json.obj []) "boom"
     (fun p hp => by
       rw [List.mem_singleton] at hp
       subst hp
       rfl)
     rfl⟩

/-! ### Pairing lemmas for the chat endpoint -/

theorem updatePairs_inv (R : ToolReturnOut → Prop) (part : RequestPart)
    (hpart : ∀ name content cid, part = RequestPart.toolReturn name content cid →
      R ⟨name, pyStr content, cid⟩)
    (pairs : List (ToolCallOut × Option ToolReturnOut))
    (hpairs : ∀ pr ∈ pairs, PairInv R pr) :
    ∀ pr ∈ updatePairs pairs part, PairInv R pr := by
  intro pr hpr
  cases part with
  | toolReturn name content cid =>
      rw [updatePairs] at hpr
      rcases List.mem_map.mp hpr with ⟨pr0, hpr0, rfl⟩
      by_cases h : pr0.1.callId == cid
      · rw [if_pos h]
        exact Or.inr ⟨⟨name, pyStr content, cid⟩, rfl, hpart name content cid rfl,
          (eq_of_beq h).symm⟩
      · rw [if_neg h]
        exact hpairs pr0 hpr0
  | systemPrompt c => exact hpairs pr hpr
  | userPrompt c => exact hpairs pr hpr

theorem foldl_updatePairs_inv (R : ToolReturnOut → Prop) :
    ∀ (parts : List RequestPart) (acc : List (ToolCallOut × Option ToolReturnOut)),
      (∀ name content cid, RequestPart.toolReturn name content cid ∈ parts →
        R ⟨name, pyStr content, cid⟩) →
      (∀ pr ∈ acc, PairInv R pr) →
      ∀ pr ∈ parts.foldl updatePairs acc, PairInv R pr := by
  intro parts
  induction parts with
  | nil => intro acc _ hacc; exact hacc
  | cons p rest ih =>
      intro acc hparts hacc
      rw [List.foldl_cons]
      refine ih (updatePairs acc p) ?_ ?_
      · intro n c cid hmem
        exact hparts n c cid (List.mem_cons_of_mem p hmem)
      · refine updatePairs_inv R p ?_ acc hacc
        intro n c cid hp
        subst hp
        exact hparts n c cid (List.mem_cons_self _ _)

theorem responseCallPairs_none (parts : List ResponsePart) :
    ∀ pr ∈ responseCallPairs parts, pr.2 = none := by
  induction parts with
  | nil => intro pr hpr; simp [responseCallPairs] at hpr
  | cons p rest ih =>
      intro pr hpr
      cases p with
      | text c => exact ih pr (by simpa [responseCallPairs] using hpr)
      | toolCall n a cid =>
          rw [responseCallPairs, List.foldr_cons] at hpr
          rcases List.mem_cons.mp hpr with h | h
          · subst h; rfl
          · exact ih pr h

theorem collectPairs_sound (R : ToolReturnOut → Prop) :
    ∀ (msgs : List ModelMessage) (acc : List (ToolCallOut × Option ToolReturnOut)),
      (∀ parts name content cid, ModelMessage.request parts ∈ msgs →
        RequestPart.toolReturn name content cid ∈ parts → R ⟨name, pyStr content, cid⟩) →
      (∀ pr ∈ acc, PairInv R pr) →
      ∀ pr ∈ collectPairs msgs acc, PairInv R pr := by
  intro msgs
  induction msgs with
  | nil => intro acc _ hacc; exact hacc
  | cons m rest ih =>
      intro acc hmsgs hacc
      cases m with
      | response parts =>
          rw [collectPairs]
          refine ih (acc ++ responseCallPairs parts) ?_ ?_
          · intro ps n c cid hps hp
            exact hmsgs ps n c cid (List.mem_cons_of_mem _ hps) hp
          · intro pr hpr
            rcases List.mem_append.mp hpr with h | h
            · exact hacc pr h
            · exact Or.inl (responseCallPairs_none parts pr h)
      | request parts =>
          rw [collectPairs]
          refine ih (parts.foldl updatePairs acc) ?_ ?_
          · intro ps n c cid hps hp
            exact hmsgs ps n c cid (List.mem_cons_of_mem _ hps) hp
          · refine foldl_updatePairs_inv R parts acc ?_ hacc
            intro n c cid hmem
            exact hmsgs parts n c cid (List.mem_cons_self _ _) hmem

theorem matchedPairs_mem (pairs : List (ToolCallOut × Option ToolReturnOut)) :
    ∀ q ∈ matchedPairs pairs, (q.1, some q.2) ∈ pairs := by
  induction pairs with
  | nil => intro q hq; simp [matchedPairs] at hq
  | cons pr rest ih =>
      intro q hq
      rw [matchedPairs, List.foldr_cons] at hq
      cases h2 : pr.2 with
      | some r =>
          rw [h2] at hq
          rcases List.mem_cons.mp hq with h | h
          · subst h
            have hpr : (pr.1, some r) = pr := by rw [← h2]
            show (pr.1, some r) ∈ pr :: rest
            rw [hpr]
            exact List.mem_cons_self _ _
          · exact List.mem_cons_of_mem pr (ih q h)
      | none =>
          rw [h2] at hq
          exact List.mem_cons_of_mem pr (ih q hq)

theorem matchedPairs_eq_nil_iff (pairs : List (ToolCallOut × Option ToolReturnOut)) :
    matchedPairs pairs = [] ↔ ∀ pr ∈ pairs, pr.2 = none := by
  induction pairs with
  | nil => simp [matchedPairs]
  | cons pr rest ih =>
      rw [matchedPairs, List.foldr_cons]
      cases h2 : pr.2 with
      | some r =>
          simp only [List.mem_cons]
          constructor
          · intro h; cases h
          · intro h
            have := h pr (Or.inl rfl)
            rw [h2] at this
            cases this
      | none =>
          rw [show (rest.foldr (fun pr acc =>
              match pr.2 with | some r => (pr.1, r) :: acc | none => acc) [])
            = matchedPairs rest from rfl]
          rw [ih]
          constructor
          · intro h q hq
            rcases List.mem_cons.mp hq with rfl | hq'
            · exact h2
            · exact h q hq'
          · intro h q hq
            exact h q (List.mem_cons_of_mem pr hq)

/-- **C9 counterexample**: with `limit = 0` the endpoint builds the response
from the WHOLE history (`history[-0:]` is `history[0:]`), not from the last
0 entries (which would be none): a one-message history yields one returned
message where the claim predicts an empty list. -/
theorem limit_zero_counterexample :
    (get_conversation (some ⟨some 1, "m", none, [.request [.userPrompt "hi"]], 1⟩)
        0).messages = [⟨"user", "hi", none⟩] ∧
    buildApiMessages (lastN 0 [.request [.userPrompt "hi"]]) = [] :=
  ⟨rfl, rfl⟩

/-- **C9 (amended)**: for every active conversation and every limit ≥ 1,
the returned message list is built from exactly the last `limit` entries of
the in-memory history while `total_messages` reports the full history
length (so the returned list can contain fewer entries than
`total_messages`, e.g. when the truncated span holds only tool returns);
`limit = 0` instead returns the full history. -/
theorem get_conversation_truncation (c : Conversation) (limit : Int)
    (hl : 1 ≤ limit) :
    (get_conversation (some c) limit).messages
      = buildApiMessages (lastN limit.toNat c.history) ∧
    (get_conversation (some c) limit).totalMessages = c.history.length ∧
    (get_conversation (some ⟨some 1, "m", none,
        [.request [.toolReturn "t" (.str "r") "id"]], 1⟩) 5).messages.length
      < (get_conversation (some ⟨some 1, "m", none,
        [.request [.toolReturn "t" (.str "r") "id"]], 1⟩) 5).totalMessages := by
  have h0 : (0 : Int) < limit := lt_of_lt_of_le zero_lt_one hl
  refine ⟨?_, rfl, by decide⟩
  simp only [get_conversation, pyTailSlice, if_pos h0, lastN]

/-- Witness for C9 (amended): `limit = 1` on a two-message history. -/
theorem get_conversation_truncation_witness :
    ((1 : Int) ≤ 1) ∧
    ((get_conversation (some ⟨some 1, "m", none,
        [.request [.userPrompt "a"], .request [.userPrompt "b"]], 1⟩) 1).messages
      = buildApiMessages (lastN (1 : Int).toNat
          [.request [.userPrompt "a"], .request [.userPrompt "b"]]) ∧
     (get_conversation (some ⟨some 1, "m", none,
        [.request [.userPrompt "a"], .request [.userPrompt "b"]], 1⟩) 1).totalMessages
      = ([ModelMessage.request [.userPrompt "a"],
          ModelMessage.request [.userPrompt "b"]]).length ∧
     (get_conversation (some ⟨some 1, "m", none,
        [.request [.toolReturn "t" (.str "r") "id"]], 1⟩) 5).messages.length
      < (get_conversation (some ⟨some 1, "m", none,
        [.request [.toolReturn "t" (.str "r") "id"]], 1⟩) 5).totalMessages) :=
  ⟨le_refl 1,
   get_conversation_truncation
     ⟨some 1, "m", none, [.request [.userPrompt "a"], .request [.userPrompt "b"]], 1⟩
     1 (le_refl 1)⟩

/-- **C10** Paired-only tool calls: every pair in the non-streaming chat
response's `tool_calls` consists of a tool call whose call id is matched by
a tool-return part actually found in the turn's new messages (the pair's
return carries that part's data); and `tool_calls` is `None` exactly when
no opened call pair was matched by any return. -/
theorem chat_tool_calls_paired (msgs : List ModelMessage) :
    (∀ q ∈ (chatToolCalls msgs).getD [], q.2.callId = q.1.callId ∧
      returnPartIn msgs q.2) ∧
    (chatToolCalls msgs = none ↔ ∀ pr ∈ collectPairs msgs [], pr.2 = none) := by
  constructor
  · intro q hq
    have hq' : q ∈ matchedPairs (collectPairs msgs []) := by
      by_cases h : (matchedPairs (collectPairs msgs [])).isEmpty
      · rw [chatToolCalls] at hq
        simp only [h, if_true] at hq
        simp at hq
      · rw [chatToolCalls] at hq
        simp only [h, if_false] at hq
        simpa using hq
    have hmem := matchedPairs_mem _ q hq'
    have hinv := collectPairs_sound (returnPartIn msgs) msgs []
      (fun parts n c cid hp hpp => ⟨parts, c, hp, hpp, rfl⟩)
      (by intro pr h; cases h) _ hmem
    rcases hinv with h | ⟨r, hr, hR, hcid⟩
    · exact absurd h (by simp)
    · have : q.2 = r := by
        have : some q.2 = some r := hr
        injection this
      subst this
      exact ⟨hcid, hR⟩
  · cases hmatch : matchedPairs (collectPairs msgs []) with
    | nil =>
        simp only [chatToolCalls, hmatch, List.isEmpty_nil, if_true, true_iff]
        exact matchedPairs_eq_nil_iff _ |>.mp hmatch
    | cons q qs =>
        simp only [chatToolCalls, hmatch, List.isEmpty_cons, Bool.false_eq_true,
          if_false]
        constructor
        · intro h
          cases h
        · intro hall
          have h := matchedPairs_eq_nil_iff (collectPairs msgs []) |>.mpr hall
          rw [hmatch] at h
          cases h

/-- Witness for C10: one tool call matched by its return. -/
theorem chat_tool_calls_paired_witness :
    ((⟨⟨"t", Json.obj [], "id1"⟩, ⟨"t", "ok", "id1"⟩⟩ :
        ToolCallOut × ToolReturnOut) ∈
      (chatToolCalls [ModelMessage.response [.toolCall "t" (.obj []) "id1"],
        ModelMessage.request [.toolReturn "t" (.str "ok") "id1"]]).getD []) ∧
    ((⟨"t", "ok", "id1"⟩ : ToolReturnOut).callId
        = (⟨"t", Json.obj [], "id1"⟩ : ToolCallOut).callId ∧
     returnPartIn [ModelMessage.response [.toolCall "t" (.obj []) "id1"],
        ModelMessage.request [.toolReturn "t" (.str "ok") "id1"]]
       (⟨"t", "ok", "id1"⟩ : ToolReturnOut)) :=
  ⟨List.mem_singleton.mpr rfl,
   (chat_tool_calls_paired
     [ModelMessage.response [.toolCall "t" (.obj []) "id1"],
      ModelMessage.request [.toolReturn "t" (.str "ok") "id1"]]).1
     ⟨⟨"t", Json.obj [], "id1"⟩, ⟨"t", "ok", "id1"⟩⟩
     (List.mem_singleton.mpr rfl)⟩

end AlphaAI
